import Mathlib

/-!
Verification of the annotation schema/command subsystem of `edb/schema/annos.py`
and of the IR cardinality inference of
`edgedb/lang/ir/inference/cardinality.py`.

Python classes become Lean structures, methods become functions, raised
exceptions become `Except` errors.  Helper machinery of the repository that is
not under src/ (the `sd` command base classes, `referencing.add_classref`, the
name utilities, `schema.get`, the constant-expression evaluator and the base
verbose-name builder) is modelled from the spec; each such definition carries a
doc comment starting with `Modelled from the spec:`.  Identifiers are kept
close to the source names, with small renamings documented next to each
definition.
-/

namespace EdgeDB

/-- Qualified object name: the qualifying components (module and, for a child
object, the subject path) together with the final short component.  Modelled
from the spec: a child qualified name is derived deterministically from
(subject name, short name). -/
structure FullName where
  qual : List String
  short : String
deriving DecidableEq

/-- Modelled from the spec: `sn.shortname_from_fullname` (module
`edb.schema.name`, not under src/) extracts the short name from a qualified
name. -/
def shortname_from_fullname (n : FullName) : String := n.short

/-- Source class `Annotation` of annos.py (line 37), renamed to avoid a clash
with reserved suffixes: a qualified inheriting object with schema fields
`name` and `inheritable` (default `False`). -/
structure AnnotationDef where
  name : FullName
  inheritable : Bool
deriving DecidableEq

/-- Accessor `get_inheritable` generated by the `inheritable` SchemaField of
the source class `Annotation`. -/
def AnnotationDef.get_inheritable (a : AnnotationDef) : Bool := a.inheritable

/-- Error taxonomy of spec section 7.  `typeMismatch` models the `ValueError`
that annos.py raises when an evaluated literal is not a string, which the spec
classifies as `TypeMismatch`. -/
inductive BuildError where
  | duplicateObject
  | duplicateReference
  | objectNotFound
  | referenceNotFound
  | unresolvedReference
  | typeMismatch
  | fieldNotInheritable
  | notConstant
deriving DecidableEq

/-- Association lookup keyed by a string, used for the schema object index and
the recorded attribute assignments: the first entry under the key, if any. -/
def assocFind {α : Type} : List (String × α) → String → Option α
  | [], _ => none
  | (k, v) :: rest, key => if k = key then some v else assocFind rest key

/-- Modelled from the spec: the Schema is an immutable mapping from object
name to catalog object; here the Annotation definitions, indexed by short
name. -/
structure Schema where
  annotations : List (String × AnnotationDef)
deriving DecidableEq

/-- Modelled from the spec: `schema.get(name)` (module `edb.schema.schema`,
not under src/) resolves a name to the object and fails with
`UnresolvedReference` when no object is registered under it. -/
def Schema.get (s : Schema) (name : String) : Except BuildError AnnotationDef :=
  match assocFind s.annotations name with
  | some a => .ok a
  | none => .error .unresolvedReference

/-- Constant expression syntax embedded in DDL nodes.  `stringConst s` is
`qlast.StringConstant` holding `s`; `qlast.StringConstant.from_python s`
builds exactly `stringConst s`.  `intConst` stands for a constant of a
non-string type and `nonConst` for an expression that is not statically
evaluable. -/
inductive QlExpr where
  | stringConst (s : String)
  | intConst (n : Int)
  | nonConst
deriving DecidableEq

/-- A Python literal produced by the constant evaluator. -/
inductive PyVal where
  | str (s : String)
  | int (n : Int)
deriving DecidableEq

/-- Mirrors the check `isinstance(value, str)` of annos.py. -/
def PyVal.isStr : PyVal → Bool
  | .str _ => true
  | .int _ => false

/-- Modelled from the spec: `qlcompiler.evaluate_ast_to_python_val` (external
collaborator, not under src/) evaluates a constant expression to a literal and
fails with `NotConstant` when the expression is not statically evaluable. -/
def evaluate_ast_to_python_val (e : QlExpr) (_schema : Schema) : Except BuildError PyVal :=
  match e with
  | .stringConst s => .ok (.str s)
  | .intConst n => .ok (.int n)
  | .nonConst => .error .notConstant

/-- A value recorded by `set_attribute_value`: the builds in annos.py record
booleans (`inheritable`, `is_abstract`, `is_final`), strings (`value`) and
Annotation definition objects (`annotation`). -/
inductive AttrValue where
  | booleanV (b : Bool)
  | stringV (s : String)
  | annotationV (a : AnnotationDef)
deriving DecidableEq

/-- Modelled from the spec: a command node (`sd.Command`, not under src/)
holds a target qualified name and an ordered list of attribute-value
assignments. -/
structure Command where
  classname : FullName
  ops : List (String × AttrValue)
deriving DecidableEq

/-- Modelled from the spec: `set_attribute_value` records an assignment at the
end of the ordered assignment list of the command. -/
def Command.set_attribute_value (cmd : Command) (prop : String) (v : AttrValue) : Command :=
  { cmd with ops := cmd.ops ++ [(prop, v)] }

/-- The value a command recorded for an attribute. -/
def Command.get_attribute_value (cmd : Command) (prop : String) : Option AttrValue :=
  assocFind cmd.ops prop

/-- Modelled from the spec: the shared `sd` base of `_cmd_tree_from_ast`
creates a command whose classname is derived from the object name of the
syntax node, with no attribute assignment relevant to the annotation
commands. -/
def base_cmd_tree_from_ast (name : FullName) : Command :=
  { classname := name, ops := [] }

/-- Syntax node `qlast.CreateAnnotation`: an object name plus the
`inheritable` flag. -/
structure CreateAnnotationAst where
  name : FullName
  inheritable : Bool
deriving DecidableEq

/-- Syntax node `qlast.CreateAnnotationValue`: an object name plus the
embedded constant value expression. -/
structure CreateAnnotationValueAst where
  name : FullName
  value : QlExpr
deriving DecidableEq

/-- Syntax node `qlast.AlterAnnotationValue`: an object name plus the embedded
constant value expression. -/
structure AlterAnnotationValueAst where
  name : FullName
  value : QlExpr
deriving DecidableEq

/-- Source classmethod `CreateAnnotation._cmd_tree_from_ast` (annos.py lines
138-153): after the base build, it records `inheritable` from the node and
then `is_abstract` as `True`.  `CreateAnnotationCmd` renames the source class
`CreateAnnotation`. -/
def CreateAnnotationCmd.cmd_tree_from_ast (_schema : Schema) (astnode : CreateAnnotationAst) :
    Command :=
  let cmd := base_cmd_tree_from_ast astnode.name
  let cmd := Command.set_attribute_value cmd ("inheritable") (.booleanV astnode.inheritable)
  let cmd := Command.set_attribute_value cmd ("is_abstract") (.booleanV true)
  cmd

/-- Source method `CreateAnnotation._apply_field_ast` (annos.py lines
155-163): the `inheritable` property is projected onto the `inheritable` field
of the node; every other property is delegated to the base projector, which
touches no field of `qlast.CreateAnnotation` modelled here.  The build only
records boolean values under `inheritable`, so a value of another shape leaves
the node unchanged (Python would perform the same untyped assignment). -/
def CreateAnnotationCmd.apply_field_ast (node : CreateAnnotationAst) (op : String × AttrValue) :
    CreateAnnotationAst :=
  if op.1 = "inheritable" then
    match op.2 with
    | .booleanV b => { node with inheritable := b }
    | _ => node
  else
    node

/-- Modelled from the spec: the projection to syntax (`sd.ObjectCommand`, not
under src/) applies `_apply_field_ast` for each attribute assignment the
command recorded, on a freshly constructed syntax node of the command node
kind carrying the command classname. -/
def CreateAnnotationCmd.get_ast (cmd : Command) : CreateAnnotationAst :=
  cmd.ops.foldl CreateAnnotationCmd.apply_field_ast
    { name := cmd.classname, inheritable := false }

/-- Source classmethod `CreateAnnotationValue._cmd_tree_from_ast` (annos.py
lines 213-239): derives the short name from the command classname, evaluates
the embedded expression to a literal, rejects non-string literals, resolves
the Annotation definition under the short name, and records `annotation`,
`value` and `is_final` (the negation of the definition inheritability).
`CreateAnnotationValueCmd` renames the source class `CreateAnnotationValue`. -/
def CreateAnnotationValueCmd.cmd_tree_from_ast (schema : Schema)
    (astnode : CreateAnnotationValueAst) : Except BuildError Command :=
  let cmd := base_cmd_tree_from_ast astnode.name
  let propname := shortname_from_fullname cmd.classname
  match evaluate_ast_to_python_val astnode.value schema with
  | .error e => .error e
  | .ok value =>
      match value with
      | .str v =>
          match Schema.get schema propname with
          | .error e => .error e
          | .ok attr =>
              let cmd := Command.set_attribute_value cmd ("annotation") (.annotationV attr)
              let cmd := Command.set_attribute_value cmd ("value") (.stringV v)
              let cmd := Command.set_attribute_value cmd ("is_final")
                (.booleanV (! AnnotationDef.get_inheritable attr))
              .ok cmd
      | .int _ => .error .typeMismatch

/-- Source method `CreateAnnotationValue._apply_field_ast` (annos.py lines
241-250): the `value` property is projected onto the `value` field of the node
as a `qlast.StringConstant` built from the recorded string; every other
property is delegated to the base projector, which touches no field of
`qlast.CreateAnnotationValue` modelled here.  The build only records string
values under `value` (the source asserts this), so a value of another shape
leaves the node unchanged. -/
def CreateAnnotationValueCmd.apply_field_ast (node : CreateAnnotationValueAst)
    (op : String × AttrValue) : CreateAnnotationValueAst :=
  if op.1 = "value" then
    match op.2 with
    | .stringV s => { node with value := .stringConst s }
    | _ => node
  else
    node

/-- Modelled from the spec: projection of a built CreateAnnotationValue
command onto a fresh `qlast.CreateAnnotationValue` node carrying the command
classname; the embedded expression placeholder is overwritten by the recorded
`value` assignment. -/
def CreateAnnotationValueCmd.get_ast (cmd : Command) : CreateAnnotationValueAst :=
  cmd.ops.foldl CreateAnnotationValueCmd.apply_field_ast
    { name := cmd.classname, value := .stringConst ("") }

/-- Source classmethod `AlterAnnotationValue._cmd_tree_from_ast` (annos.py
lines 261-286): evaluates the embedded expression, rejects non-string
literals, and records `value`.  `AlterAnnotationValueCmd` renames the source
class `AlterAnnotationValue`. -/
def AlterAnnotationValueCmd.cmd_tree_from_ast (schema : Schema)
    (astnode : AlterAnnotationValueAst) : Except BuildError Command :=
  let cmd := base_cmd_tree_from_ast astnode.name
  match evaluate_ast_to_python_val astnode.value schema with
  | .error e => .error e
  | .ok value =>
      match value with
      | .str v => .ok (Command.set_attribute_value cmd ("value") (.stringV v))
      | .int _ => .error .typeMismatch

/-- Source method `AlterAnnotationValue._apply_field_ast` (annos.py lines
288-301): identical projection of the `value` property as for the create
command. -/
def AlterAnnotationValueCmd.apply_field_ast (node : AlterAnnotationValueAst)
    (op : String × AttrValue) : AlterAnnotationValueAst :=
  if op.1 = "value" then
    match op.2 with
    | .stringV s => { node with value := .stringConst s }
    | _ => node
  else
    node

/-- Modelled from the spec: projection of a built AlterAnnotationValue command
onto a fresh `qlast.AlterAnnotationValue` node carrying the command
classname. -/
def AlterAnnotationValueCmd.get_ast (cmd : Command) : AlterAnnotationValueAst :=
  cmd.ops.foldl AlterAnnotationValueCmd.apply_field_ast
    { name := cmd.classname, value := .stringConst ("") }

/-- Source class `AnnotationValue` of annos.py (line 59): a referenced
inheriting object with schema fields `subject`, `annotation` (rendered here as
`annotation_ref`, the short name of the referenced definition) and the string
`value`. -/
structure AnnotationValueObj where
  name : FullName
  subject : Option String
  annotation_ref : String
  value : String
deriving DecidableEq

/-- Accessor `get_value` generated by the `value` SchemaField of the source
class `AnnotationValue`. -/
def AnnotationValueObj.get_value (v : AnnotationValueObj) : String := v.value

/-- The `annotations` collection of a subject (`so.ObjectIndexByShortname`):
annotation values indexed by short name. -/
abbrev AnnoIndex := List (String × AnnotationValueObj)

/-- Source class `AnnotationSubject` of annos.py (line 93), carrying its
ephemeral `annotations` collection. -/
structure AnnotationSubject where
  annotations : AnnoIndex
deriving DecidableEq

/-- Modelled from the spec: `add_classref` (module `edb.schema.referencing`,
not under src/) inserts a child under its derived short name; when a child
already exists under that short name, it fails with `DuplicateReference` if
`replace` is false and atomically swaps the old child for the new one if
`replace` is true. -/
def add_classref (coll : AnnoIndex) (child : AnnotationValueObj) (replace : Bool) :
    Except BuildError AnnoIndex :=
  let sname := shortname_from_fullname child.name
  match assocFind coll sname with
  | some _ =>
      if replace then
        .ok (coll.map (fun p => if p.1 = sname then (sname, child) else p))
      else
        .error .duplicateReference
  | none => .ok (coll ++ [(sname, child)])

/-- Source method with source name `add_annotation` of `AnnotationSubject`
(annos.py lines 104-110): delegates to `add_classref` on the `annotations`
collection.  Renamed with a `_value` suffix to avoid a reserved identifier
suffix. -/
def AnnotationSubject.add_annotation_value (s : AnnotationSubject)
    (anno : AnnotationValueObj) (replace : Bool) : Except BuildError AnnotationSubject :=
  (add_classref s.annotations anno replace).map (fun c => { annotations := c })

/-- Source method with source name `get_annotation` of `AnnotationSubject`
(annos.py lines 118-122): looks the annotation value up by short name in the
collection and returns its stored string value, or `none` when absent. -/
def AnnotationSubject.get_annotation_value (s : AnnotationSubject) (name : String) :
    Option String :=
  match assocFind s.annotations name with
  | some attrval => some attrval.get_value
  | none => none

/-- Source method with source name `add_annotation` of
`AnnotationValueCommand` (annos.py lines 193-197): always delegates to the
parent subject with `replace=True`. -/
def AnnotationValueCommand.add_annotation_value (parent : AnnotationSubject)
    (anno : AnnotationValueObj) : Except BuildError AnnotationSubject :=
  AnnotationSubject.add_annotation_value parent anno true

/-- Catalog objects relevant to `get_verbosename`, with the owning subject
embedded structurally: the source resolves `self.get_subject(schema)` through
the schema, the embedding carries the resolved subject directly, and a subject
field that is `None` in the source is rendered by the dedicated constructors
without a subject.  `genericObject`/`genericTop` stand, modelled from the
spec, for the other catalog object kinds that can own children. -/
inductive VerboseObj where
  | annotationDef (sname : String)
  | annotationValue (sname : String) (subject : VerboseObj)
  | annotationValueOrphan (sname : String)
  | genericObject (displayname : String) (sname : String) (subject : VerboseObj)
  | genericTop (displayname : String) (sname : String)
deriving DecidableEq

/-- Modelled from the spec: the base `Object.get_verbosename` (module
`edb.schema.objects`, not under src/) produces the class displayname followed
by the short name; `AnnotationValue.get_schema_class_displayname` is
`annotation` (annos.py lines 75-77), and the displayname of the Annotation
definition class is likewise `annotation`. -/
def base_verbosename : VerboseObj → String
  | .annotationDef sname => "annotation " ++ sname
  | .annotationValue sname _ => "annotation " ++ sname
  | .annotationValueOrphan sname => "annotation " ++ sname
  | .genericObject displayname sname _ => displayname ++ " " ++ sname
  | .genericTop displayname sname => displayname ++ " " ++ sname

/-- Source methods `Annotation.get_verbosename` (annos.py lines 51-56), which
prefixes the word abstract and ignores `with_parent`, and
`AnnotationValue.get_verbosename` (annos.py lines 79-90), which when
`with_parent` is true suffixes the verbose name of the owning subject computed
recursively with `with_parent=True`; the source `assert subject is not None`
is modelled as `none`.  The generic cases are modelled from the spec: when
`with_parent` is true and the object has an owning subject, the name is
suffixed the same way. -/
def get_verbosename : VerboseObj → Bool → Option String
  | .annotationDef sname, _ =>
      some ("abstract " ++ base_verbosename (.annotationDef sname))
  | .annotationValue sname subject, with_parent =>
      let vn := base_verbosename (.annotationValue sname subject)
      if with_parent then
        (get_verbosename subject true).map (fun pvn => vn ++ " of " ++ pvn)
      else
        some vn
  | .annotationValueOrphan sname, with_parent =>
      let vn := base_verbosename (.annotationValueOrphan sname)
      if with_parent then none else some vn
  | .genericObject displayname sname subject, with_parent =>
      let vn := base_verbosename (.genericObject displayname sname subject)
      if with_parent then
        (get_verbosename subject true).map (fun pvn => vn ++ " of " ++ pvn)
      else
        some vn
  | .genericTop displayname sname, _ =>
      some (base_verbosename (.genericTop displayname sname))

/-- Cardinality domain of cardinality.py: the source computes with numbers,
with `ONE = 1` and `MANY = math.inf`; `fin n` models the finite numbers and
`inf` the infinity, so values outside the two designated ones are
representable, as they are in the source domain. -/
inductive Cardinality where
  | fin (n : Nat)
  | inf
deriving DecidableEq

/-- Source constant `ONE = 1` (cardinality.py line 17). -/
def ONE : Cardinality := .fin 1

/-- Source constant `MANY = math.inf` (cardinality.py line 18). -/
def MANY : Cardinality := .inf

/-- IR nodes handled by the `_infer_cardinality` dispatch of cardinality.py.
The source branches on `ir.expr is not None`, then `ir.rptr is not None` for a
`Set`; the three branches are rendered as the constructors `setExpr` (a `Set`
with a non-None `expr`), `setRptr` (a `Set` with `expr` None and `rptr` not
None, carrying `rptr.ptrcls.singular(rptr.direction)` and `rptr.source`) and
`setBare` (neither present).  `setOp` carries whether `op == qlast.UNION`
together with `left` and `right`; `coalesce` carries the two arguments of the
binary coalescing operator, whose `args` list the source feeds to
`_common_cardinality`; `stmt` carries the `singleton` flag and `result`. -/
inductive IR where
  | setExpr (expr : IR)
  | setRptr (singular : Bool) (source : IR)
  | setBare
  | functionCall
  | constant
  | parameter
  | coalesce (left : IR) (right : IR)
  | setOp (isUnion : Bool) (left : IR) (right : IR)
  | binOp (left : IR) (right : IR)
  | unaryOp (expr : IR)
  | ifElseExpr (if_expr : IR) (else_expr : IR) (condition : IR)
  | typeCast (expr : IR)
  | typeFilter (expr : IR)
  | stmt (singleton : Bool) (result : IR)
  | existPred
  | sliceIndirection (expr : IR)
  | indexIndirection (expr : IR)
  | array
  | mapping
  | sequence
  | struct
  | structIndirection
deriving DecidableEq

/-- The error raised by `infer_cardinality` (cardinality.py lines 149-153)
when the per-node inference produced a value outside `{ONE, MANY}`: an
`EdgeQLError` saying the cardinality could not be determined. -/
inductive CardError where
  | edgeQLError
deriving DecidableEq

/-- The memoized `_inferred_cardinality_` node attribute of cardinality.py,
modelled as an explicit association list threaded through the computation. -/
abbrev InferenceCache := List (IR × Cardinality)

/-- Lookup of the memoized cardinality of a node, mirroring the attribute read
`ir._inferred_cardinality_` (cardinality.py lines 142-145). -/
def lookupCache (cache : InferenceCache) (ir : IR) : Option Cardinality :=
  match cache with
  | [] => none
  | (k, v) :: rest => if k = ir then some v else lookupCache rest ir

mutual

/-- Source function `infer_cardinality` (cardinality.py lines 138-156): the
singleton check, the memo lookup, the per-node dispatch, the guard that the
result lies in `{ONE, MANY}` (raising `EdgeQLError` otherwise), and the memo
write. -/
def infer_cardinality (ir : IR) (singletons : List IR) (cache : InferenceCache) :
    Except CardError (Cardinality × InferenceCache) :=
  if ir ∈ singletons then
    .ok (ONE, cache)
  else
    match lookupCache cache ir with
    | some c => .ok (c, cache)
    | none =>
        match infer_cardinality_dispatch ir singletons cache with
        | .error e => .error e
        | .ok (result, cache2) =>
            if result = ONE ∨ result = MANY then
              .ok (result, (ir, result) :: cache2)
            else
              .error .edgeQLError
termination_by (sizeOf ir, 1)

/-- Source dispatch `_infer_cardinality` (cardinality.py lines 28-135), one
arm per registered node kind.  The calls
`_common_cardinality([...], singletons, schema)` on the fixed-arity argument
lists of `Coalesce`, `BinOp` and `IfElseExpr` are inlined as the corresponding
short-circuit conjunctions: `ONE` when every argument infers to `ONE`, `MANY`
otherwise, stopping at the first argument that is not `ONE` as the Python
`all(...)` generator does. -/
def infer_cardinality_dispatch (ir : IR) (singletons : List IR) (cache : InferenceCache) :
    Except CardError (Cardinality × InferenceCache) :=
  match ir with
  | .setExpr e => infer_cardinality e singletons cache
  | .setRptr singular source =>
      if singular then infer_cardinality source singletons cache
      else .ok (MANY, cache)
  | .setBare => .ok (MANY, cache)
  | .functionCall => .ok (ONE, cache)
  | .constant => .ok (ONE, cache)
  | .parameter => .ok (ONE, cache)
  | .coalesce l r =>
      match infer_cardinality l singletons cache with
      | .error e => .error e
      | .ok (c1, cache1) =>
          if c1 = ONE then
            match infer_cardinality r singletons cache1 with
            | .error e => .error e
            | .ok (c2, cache2) =>
                if c2 = ONE then .ok (ONE, cache2) else .ok (MANY, cache2)
          else .ok (MANY, cache1)
  | .setOp isUnion left _ =>
      if isUnion then .ok (MANY, cache)
      else infer_cardinality left singletons cache
  | .binOp l r =>
      match infer_cardinality l singletons cache with
      | .error e => .error e
      | .ok (c1, cache1) =>
          if c1 = ONE then
            match infer_cardinality r singletons cache1 with
            | .error e => .error e
            | .ok (c2, cache2) =>
                if c2 = ONE then .ok (ONE, cache2) else .ok (MANY, cache2)
          else .ok (MANY, cache1)
  | .unaryOp e => infer_cardinality e singletons cache
  | .ifElseExpr if_expr else_expr condition =>
      match infer_cardinality if_expr singletons cache with
      | .error e => .error e
      | .ok (c1, cache1) =>
          if c1 = ONE then
            match infer_cardinality else_expr singletons cache1 with
            | .error e => .error e
            | .ok (c2, cache2) =>
                if c2 = ONE then
                  match infer_cardinality condition singletons cache2 with
                  | .error e => .error e
                  | .ok (c3, cache3) =>
                      if c3 = ONE then .ok (ONE, cache3) else .ok (MANY, cache3)
                else .ok (MANY, cache2)
          else .ok (MANY, cache1)
  | .typeCast e => infer_cardinality e singletons cache
  | .typeFilter e => infer_cardinality e singletons cache
  | .stmt singleton result =>
      if singleton then .ok (ONE, cache)
      else infer_cardinality result singletons cache
  | .existPred => .ok (ONE, cache)
  | .sliceIndirection e => infer_cardinality e singletons cache
  | .indexIndirection e => infer_cardinality e singletons cache
  | .array => .ok (ONE, cache)
  | .mapping => .ok (ONE, cache)
  | .sequence => .ok (ONE, cache)
  | .struct => .ok (ONE, cache)
  | .structIndirection => .ok (ONE, cache)
termination_by (sizeOf ir, 0)

end

/-- A memo cache is well formed when every stored value is `ONE` or `MANY`;
the memo writes of `infer_cardinality` only store guard-checked values, so the
caches the source builds are of this shape. -/
def cacheWF (cache : InferenceCache) : Prop :=
  ∀ p ∈ cache, p.2 = ONE ∨ p.2 = MANY

/-! Shared lemmas about the association lookup. -/

theorem assocFind_map_swap {α : Type} (coll : List (String × α)) (key : String) (x : α)
    (h : (assocFind coll key).isSome = true) :
    assocFind (coll.map (fun p => if p.1 = key then (key, x) else p)) key = some x := by
  induction coll with
  | nil => simp [assocFind] at h
  | cons hd tl ih =>
      obtain ⟨k, v⟩ := hd
      by_cases hk : k = key
      · subst hk
        simp only [List.map_cons]
        simp [assocFind]
      · simp only [assocFind, if_neg hk] at h
        simp only [List.map_cons]
        have hrw : (if (k, v).1 = key then (key, x) else (k, v)) = (k, v) := by simp [hk]
        rw [hrw]
        simp only [assocFind, if_neg hk]
        exact ih h

theorem lookupCache_mem (cache : InferenceCache) (ir : IR) (c : Cardinality)
    (h : lookupCache cache ir = some c) : (ir, c) ∈ cache := by
  induction cache with
  | nil => simp [lookupCache] at h
  | cons hd tl ih =>
      obtain ⟨k, v⟩ := hd
      by_cases hk : k = ir
      · subst hk
        simp [lookupCache] at h
        subst h
        exact List.mem_cons_self _ _
      · simp [lookupCache, hk] at h
        exact List.mem_cons_of_mem _ (ih h)

/-! Claim theorems. -/

/-- Claim C1: for every command type (CreateAnnotation, CreateAnnotationValue,
AlterAnnotationValue), projecting a built command back to syntax reproduces
the original node restricted to the attributes the build recognizes; in
particular the recorded `inheritable` assignment is projected onto the node
`inheritable` flag and the recorded `value` assignment is projected onto the
node `value` as a string constant holding the recorded string, so build
followed by project followed by build is idempotent. -/
theorem claim_C1_build_project_roundtrip :
    (∀ (schema : Schema) (node : CreateAnnotationAst),
      CreateAnnotationCmd.get_ast (CreateAnnotationCmd.cmd_tree_from_ast schema node) = node)
    ∧ (∀ (schema : Schema) (node : CreateAnnotationValueAst) (cmd : Command),
      CreateAnnotationValueCmd.cmd_tree_from_ast schema node = .ok cmd →
        (∃ v : String, Command.get_attribute_value cmd ("value") = some (.stringV v)
          ∧ (CreateAnnotationValueCmd.get_ast cmd).value = .stringConst v)
        ∧ CreateAnnotationValueCmd.get_ast cmd = node
        ∧ CreateAnnotationValueCmd.cmd_tree_from_ast schema (CreateAnnotationValueCmd.get_ast cmd)
            = .ok cmd)
    ∧ (∀ (schema : Schema) (node : AlterAnnotationValueAst) (cmd : Command),
      AlterAnnotationValueCmd.cmd_tree_from_ast schema node = .ok cmd →
        (∃ v : String, Command.get_attribute_value cmd ("value") = some (.stringV v)
          ∧ (AlterAnnotationValueCmd.get_ast cmd).value = .stringConst v)
        ∧ AlterAnnotationValueCmd.get_ast cmd = node
        ∧ AlterAnnotationValueCmd.cmd_tree_from_ast schema (AlterAnnotationValueCmd.get_ast cmd)
            = .ok cmd) := by
  refine ⟨fun schema node => rfl, ?_, ?_⟩
  · rintro schema ⟨nm, val⟩ cmd h
    cases val with
    | stringConst s =>
        simp only [CreateAnnotationValueCmd.cmd_tree_from_ast, evaluate_ast_to_python_val,
          base_cmd_tree_from_ast, shortname_from_fullname, Schema.get] at h
        cases ha : assocFind schema.annotations nm.short with
        | none => rw [ha] at h; simp at h
        | some attr =>
            rw [ha] at h
            simp only [Command.set_attribute_value, List.nil_append, List.append_assoc,
              List.cons_append, Except.ok.injEq] at h
            subst h
            refine ⟨⟨s, rfl, rfl⟩, rfl, ?_⟩
            have hga : CreateAnnotationValueCmd.get_ast
                { classname := nm,
                  ops := [(("annotation"), .annotationV attr), (("value"), .stringV s),
                    (("is_final"), .booleanV (! AnnotationDef.get_inheritable attr))] }
                = CreateAnnotationValueAst.mk nm (.stringConst s) := rfl
            rw [hga]
            simp only [CreateAnnotationValueCmd.cmd_tree_from_ast, evaluate_ast_to_python_val,
              base_cmd_tree_from_ast, shortname_from_fullname, Schema.get]
            rw [ha]
            rfl
    | intConst n =>
        simp [CreateAnnotationValueCmd.cmd_tree_from_ast, evaluate_ast_to_python_val] at h
    | nonConst =>
        simp [CreateAnnotationValueCmd.cmd_tree_from_ast, evaluate_ast_to_python_val] at h
  · rintro schema ⟨nm, val⟩ cmd h
    cases val with
    | stringConst s =>
        simp only [AlterAnnotationValueCmd.cmd_tree_from_ast, evaluate_ast_to_python_val,
          base_cmd_tree_from_ast, Command.set_attribute_value, List.nil_append,
          Except.ok.injEq] at h
        subst h
        exact ⟨⟨s, rfl, rfl⟩, rfl, rfl⟩
    | intConst n =>
        simp [AlterAnnotationValueCmd.cmd_tree_from_ast, evaluate_ast_to_python_val] at h
    | nonConst =>
        simp [AlterAnnotationValueCmd.cmd_tree_from_ast, evaluate_ast_to_python_val] at h

/-- Witness for claim C1 at concrete inputs: a schema holding one annotation
definition, a CreateAnnotationValue node and an AlterAnnotationValue node over
it, with the built commands spelled out. -/
theorem claim_C1_build_project_roundtrip_witness :
    CreateAnnotationValueCmd.cmd_tree_from_ast
        (Schema.mk [(("anno1"), AnnotationDef.mk (FullName.mk [("m")] ("anno1")) false)])
        (CreateAnnotationValueCmd.get_ast
          (Command.mk (FullName.mk [("Foo")] ("anno1"))
            [(("annotation"), .annotationV (AnnotationDef.mk (FullName.mk [("m")] ("anno1")) false)),
             (("value"), .stringV ("hello")),
             (("is_final"), .booleanV true)]))
      = .ok (Command.mk (FullName.mk [("Foo")] ("anno1"))
            [(("annotation"), .annotationV (AnnotationDef.mk (FullName.mk [("m")] ("anno1")) false)),
             (("value"), .stringV ("hello")),
             (("is_final"), .booleanV true)])
    ∧ AlterAnnotationValueCmd.cmd_tree_from_ast
        (Schema.mk [(("anno1"), AnnotationDef.mk (FullName.mk [("m")] ("anno1")) false)])
        (AlterAnnotationValueCmd.get_ast
          (Command.mk (FullName.mk [("Foo")] ("anno1")) [(("value"), .stringV ("hi"))]))
      = .ok (Command.mk (FullName.mk [("Foo")] ("anno1")) [(("value"), .stringV ("hi"))]) := by
  constructor
  · exact (claim_C1_build_project_roundtrip.2.1
      (Schema.mk [(("anno1"), AnnotationDef.mk (FullName.mk [("m")] ("anno1")) false)])
      (CreateAnnotationValueAst.mk (FullName.mk [("Foo")] ("anno1")) (.stringConst ("hello")))
      _ rfl).2.2
  · exact (claim_C1_build_project_roundtrip.2.2
      (Schema.mk [(("anno1"), AnnotationDef.mk (FullName.mk [("m")] ("anno1")) false)])
      (AlterAnnotationValueAst.mk (FullName.mk [("Foo")] ("anno1")) (.stringConst ("hi")))
      _ rfl).2.2

/-- Claim C2: every successful build of a CreateAnnotationValue command sets
the `is_final` flag of the built command to the negation of the `inheritable`
field of the referenced Annotation definition in the current schema; a
definition with `inheritable=false` yields final `true` and a definition with
`inheritable=true` yields final `false`. -/
theorem claim_C2_finality_derivation :
    ∀ (schema : Schema) (node : CreateAnnotationValueAst) (cmd : Command),
      CreateAnnotationValueCmd.cmd_tree_from_ast schema node = .ok cmd →
      ∃ a : AnnotationDef,
        Schema.get schema (shortname_from_fullname node.name) = .ok a
        ∧ Command.get_attribute_value cmd ("is_final")
            = some (.booleanV (! AnnotationDef.get_inheritable a))
        ∧ (AnnotationDef.get_inheritable a = false →
            Command.get_attribute_value cmd ("is_final") = some (.booleanV true))
        ∧ (AnnotationDef.get_inheritable a = true →
            Command.get_attribute_value cmd ("is_final") = some (.booleanV false)) := by
  rintro schema ⟨nm, val⟩ cmd h
  cases val with
  | stringConst s =>
      simp only [CreateAnnotationValueCmd.cmd_tree_from_ast, evaluate_ast_to_python_val,
        base_cmd_tree_from_ast, shortname_from_fullname, Schema.get] at h
      cases ha : assocFind schema.annotations nm.short with
      | none => rw [ha] at h; simp at h
      | some attr =>
          rw [ha] at h
          simp only [Command.set_attribute_value, List.nil_append, List.append_assoc,
            List.cons_append, Except.ok.injEq] at h
          subst h
          refine ⟨attr, ?_, rfl, ?_, ?_⟩
          · simp [Schema.get, shortname_from_fullname, ha]
          · intro hi
            simp only [AnnotationDef.get_inheritable] at hi
            simp [Command.get_attribute_value, assocFind, AnnotationDef.get_inheritable, hi]
          · intro hi
            simp only [AnnotationDef.get_inheritable] at hi
            simp [Command.get_attribute_value, assocFind, AnnotationDef.get_inheritable, hi]
  | intConst n =>
      simp [CreateAnnotationValueCmd.cmd_tree_from_ast, evaluate_ast_to_python_val] at h
  | nonConst =>
      simp [CreateAnnotationValueCmd.cmd_tree_from_ast, evaluate_ast_to_python_val] at h

/-- Witness for claim C2: building against a schema whose definition has
`inheritable=false` yields a command recording final `true`. -/
theorem claim_C2_finality_derivation_witness :
    ∃ a : AnnotationDef,
      Schema.get (Schema.mk [(("anno1"), AnnotationDef.mk (FullName.mk [("m")] ("anno1")) false)])
          (shortname_from_fullname
            (CreateAnnotationValueAst.mk (FullName.mk [("Foo")] ("anno1"))
              (.stringConst ("hello"))).name)
        = .ok a
      ∧ Command.get_attribute_value
          (Command.mk (FullName.mk [("Foo")] ("anno1"))
            [(("annotation"), .annotationV (AnnotationDef.mk (FullName.mk [("m")] ("anno1")) false)),
             (("value"), .stringV ("hello")),
             (("is_final"), .booleanV true)]) ("is_final")
          = some (.booleanV (! AnnotationDef.get_inheritable a))
      ∧ (AnnotationDef.get_inheritable a = false →
          Command.get_attribute_value
            (Command.mk (FullName.mk [("Foo")] ("anno1"))
              [(("annotation"), .annotationV (AnnotationDef.mk (FullName.mk [("m")] ("anno1")) false)),
               (("value"), .stringV ("hello")),
               (("is_final"), .booleanV true)]) ("is_final") = some (.booleanV true))
      ∧ (AnnotationDef.get_inheritable a = true →
          Command.get_attribute_value
            (Command.mk (FullName.mk [("Foo")] ("anno1"))
              [(("annotation"), .annotationV (AnnotationDef.mk (FullName.mk [("m")] ("anno1")) false)),
               (("value"), .stringV ("hello")),
               (("is_final"), .booleanV true)]) ("is_final") = some (.booleanV false)) :=
  claim_C2_finality_derivation
    (Schema.mk [(("anno1"), AnnotationDef.mk (FullName.mk [("m")] ("anno1")) false)])
    (CreateAnnotationValueAst.mk (FullName.mk [("Foo")] ("anno1")) (.stringConst ("hello")))
    (Command.mk (FullName.mk [("Foo")] ("anno1"))
      [(("annotation"), .annotationV (AnnotationDef.mk (FullName.mk [("m")] ("anno1")) false)),
       (("value"), .stringV ("hello")),
       (("is_final"), .booleanV true)])
    rfl

/-- Claim C3: every build of a CreateAnnotation command records an
`is_abstract` assignment with value `true`, whatever the node contents, and an
`inheritable` assignment equal to the `inheritable` flag of the node. -/
theorem claim_C3_implied_abstractness :
    ∀ (schema : Schema) (node : CreateAnnotationAst),
      Command.get_attribute_value (CreateAnnotationCmd.cmd_tree_from_ast schema node)
          ("is_abstract") = some (.booleanV true)
      ∧ Command.get_attribute_value (CreateAnnotationCmd.cmd_tree_from_ast schema node)
          ("inheritable") = some (.booleanV node.inheritable) :=
  fun _ _ => ⟨rfl, rfl⟩

/-- Claim C4: for a catalog object with an owning subject, `get_verbosename`
with `with_parent=true` returns the verbose name of the object suffixed with
of followed by the verbose name of the subject, computed recursively with
`with_parent=true` so that ownership chains compose; and for an abstract
Annotation definition the verbose name is prefixed with abstract. -/
theorem claim_C4_verbose_name_composition :
    (∀ (sname : String) (s : VerboseObj) (pvn : String),
      get_verbosename s true = some pvn →
        get_verbosename (.annotationValue sname s) true
          = some (base_verbosename (.annotationValue sname s) ++ " of " ++ pvn))
    ∧ (∀ (dname sname : String) (s : VerboseObj) (pvn : String),
      get_verbosename s true = some pvn →
        get_verbosename (.genericObject dname sname s) true
          = some (base_verbosename (.genericObject dname sname s) ++ " of " ++ pvn))
    ∧ (∀ (sname : String) (wp : Bool),
      get_verbosename (.annotationDef sname) wp
        = some ("abstract " ++ base_verbosename (.annotationDef sname))) := by
  refine ⟨?_, ?_, fun sname wp => rfl⟩
  · intro sname s pvn h
    simp [get_verbosename, h]
  · intro dname sname s pvn h
    simp [get_verbosename, h]

/-- Witness for claim C4: a three-level ownership chain, an annotation value
owned by a link owned by an object type, composes the three verbose names. -/
theorem claim_C4_verbose_name_composition_witness :
    get_verbosename
        (.annotationValue ("anno1")
          (.genericObject ("link") ("bar") (.genericTop ("object type") ("Foo")))) true
      = some (base_verbosename
            (.annotationValue ("anno1")
              (.genericObject ("link") ("bar") (.genericTop ("object type") ("Foo"))))
          ++ " of " ++ ("link bar" ++ " of " ++ "object type Foo")) :=
  claim_C4_verbose_name_composition.1 ("anno1")
    (.genericObject ("link") ("bar") (.genericTop ("object type") ("Foo")))
    (("link bar" ++ " of " ++ "object type Foo"))
    (claim_C4_verbose_name_composition.2.1 ("link") ("bar") (.genericTop ("object type") ("Foo"))
      ("object type Foo") rfl)

/-- Claim C5: when the embedded expression of a CreateAnnotationValue or
AlterAnnotationValue node evaluates to a literal that is not a string, the
build fails with the type-mismatch error and no command is produced. -/
theorem claim_C5_type_mismatch :
    ∀ (schema : Schema),
      (∀ (node : CreateAnnotationValueAst) (v : PyVal),
        evaluate_ast_to_python_val node.value schema = .ok v →
        PyVal.isStr v = false →
        CreateAnnotationValueCmd.cmd_tree_from_ast schema node = .error .typeMismatch)
      ∧ (∀ (node : AlterAnnotationValueAst) (v : PyVal),
        evaluate_ast_to_python_val node.value schema = .ok v →
        PyVal.isStr v = false →
        AlterAnnotationValueCmd.cmd_tree_from_ast schema node = .error .typeMismatch) := by
  intro schema
  constructor
  · rintro ⟨nm, val⟩ v hv hs
    cases val with
    | stringConst s =>
        simp only [evaluate_ast_to_python_val, Except.ok.injEq] at hv
        subst hv
        simp [PyVal.isStr] at hs
    | intConst n =>
        simp [CreateAnnotationValueCmd.cmd_tree_from_ast, evaluate_ast_to_python_val]
    | nonConst =>
        simp [evaluate_ast_to_python_val] at hv
  · rintro ⟨nm, val⟩ v hv hs
    cases val with
    | stringConst s =>
        simp only [evaluate_ast_to_python_val, Except.ok.injEq] at hv
        subst hv
        simp [PyVal.isStr] at hs
    | intConst n =>
        simp [AlterAnnotationValueCmd.cmd_tree_from_ast, evaluate_ast_to_python_val]
    | nonConst =>
        simp [evaluate_ast_to_python_val] at hv

/-- Witness for claim C5: an integer literal makes both builds fail with the
type-mismatch error. -/
theorem claim_C5_type_mismatch_witness :
    CreateAnnotationValueCmd.cmd_tree_from_ast (Schema.mk [])
        (CreateAnnotationValueAst.mk (FullName.mk [("Foo")] ("anno1")) (.intConst 7))
      = .error .typeMismatch
    ∧ AlterAnnotationValueCmd.cmd_tree_from_ast (Schema.mk [])
        (AlterAnnotationValueAst.mk (FullName.mk [("Foo")] ("anno1")) (.intConst 7))
      = .error .typeMismatch :=
  ⟨(claim_C5_type_mismatch (Schema.mk [])).1
      (CreateAnnotationValueAst.mk (FullName.mk [("Foo")] ("anno1")) (.intConst 7))
      (.int 7) rfl rfl,
   (claim_C5_type_mismatch (Schema.mk [])).2
      (AlterAnnotationValueAst.mk (FullName.mk [("Foo")] ("anno1")) (.intConst 7))
      (.int 7) rfl rfl⟩

/-- Claim C6: building a CreateAnnotationValue command looks the Annotation
definition up under the short name derived from the command qualified class
name; the build fails with the unresolved-reference error when no definition
is registered under that short name, and otherwise records the resolved
definition under the `annotation` attribute. -/
theorem claim_C6_definition_resolution :
    ∀ (schema : Schema) (node : CreateAnnotationValueAst) (v : String),
      evaluate_ast_to_python_val node.value schema = .ok (.str v) →
      (assocFind schema.annotations (shortname_from_fullname node.name) = none →
        CreateAnnotationValueCmd.cmd_tree_from_ast schema node = .error .unresolvedReference)
      ∧ (∀ a : AnnotationDef,
        assocFind schema.annotations (shortname_from_fullname node.name) = some a →
        ∃ cmd : Command,
          CreateAnnotationValueCmd.cmd_tree_from_ast schema node = .ok cmd
          ∧ Command.get_attribute_value cmd ("annotation") = some (.annotationV a)) := by
  rintro schema ⟨nm, val⟩ v hv
  cases val with
  | stringConst s =>
      simp only [evaluate_ast_to_python_val, Except.ok.injEq, PyVal.str.injEq] at hv
      subst hv
      constructor
      · intro ha
        simp only [CreateAnnotationValueCmd.cmd_tree_from_ast, evaluate_ast_to_python_val,
          base_cmd_tree_from_ast, shortname_from_fullname, Schema.get]
        simp only [shortname_from_fullname] at ha
        rw [ha]
      · intro a ha
        simp only [CreateAnnotationValueCmd.cmd_tree_from_ast, evaluate_ast_to_python_val,
          base_cmd_tree_from_ast, shortname_from_fullname, Schema.get]
        simp only [shortname_from_fullname] at ha
        rw [ha]
        exact ⟨_, rfl, rfl⟩
  | intConst n => simp [evaluate_ast_to_python_val] at hv
  | nonConst => simp [evaluate_ast_to_python_val] at hv

/-- Witness for claim C6: against the empty schema the build fails with the
unresolved-reference error, and with the definition present it succeeds and
records it. -/
theorem claim_C6_definition_resolution_witness :
    (CreateAnnotationValueCmd.cmd_tree_from_ast (Schema.mk [])
        (CreateAnnotationValueAst.mk (FullName.mk [("Foo")] ("anno1")) (.stringConst ("hello")))
      = .error .unresolvedReference)
    ∧ ∃ cmd : Command,
        CreateAnnotationValueCmd.cmd_tree_from_ast
            (Schema.mk [(("anno1"), AnnotationDef.mk (FullName.mk [("m")] ("anno1")) false)])
            (CreateAnnotationValueAst.mk (FullName.mk [("Foo")] ("anno1")) (.stringConst ("hello")))
          = .ok cmd
        ∧ Command.get_attribute_value cmd ("annotation")
            = some (.annotationV (AnnotationDef.mk (FullName.mk [("m")] ("anno1")) false)) :=
  ⟨(claim_C6_definition_resolution (Schema.mk [])
      (CreateAnnotationValueAst.mk (FullName.mk [("Foo")] ("anno1")) (.stringConst ("hello")))
      ("hello") rfl).1 rfl,
   (claim_C6_definition_resolution
      (Schema.mk [(("anno1"), AnnotationDef.mk (FullName.mk [("m")] ("anno1")) false)])
      (CreateAnnotationValueAst.mk (FullName.mk [("Foo")] ("anno1")) (.stringConst ("hello")))
      ("hello") rfl).2 (AnnotationDef.mk (FullName.mk [("m")] ("anno1")) false) rfl⟩

/-- Claim C7: adding an annotation value whose short name already exists in
the collection of the subject fails with the duplicate-reference error when
`replace=false`, leaving the collection untouched (the operation returns no
new state and the input collection is immutable), and with `replace=true`
swaps the old child for the new one while preserving the cardinality of the
collection. -/
theorem claim_C7_duplicate_reference_atomicity :
    ∀ (s : AnnotationSubject) (child : AnnotationValueObj),
      (assocFind s.annotations (shortname_from_fullname child.name)).isSome = true →
      AnnotationSubject.add_annotation_value s child false = .error .duplicateReference
      ∧ ∃ s2 : AnnotationSubject,
          AnnotationSubject.add_annotation_value s child true = .ok s2
          ∧ s2.annotations.length = s.annotations.length
          ∧ assocFind s2.annotations (shortname_from_fullname child.name) = some child := by
  intro s child h
  obtain ⟨w, hw⟩ := Option.isSome_iff_exists.mp h
  constructor
  · simp [AnnotationSubject.add_annotation_value, add_classref, Except.map, hw]
  · refine ⟨AnnotationSubject.mk (s.annotations.map
        (fun p => if p.1 = shortname_from_fullname child.name
          then (shortname_from_fullname child.name, child) else p)), ?_, ?_, ?_⟩
    · simp [AnnotationSubject.add_annotation_value, add_classref, Except.map, hw]
    · simp
    · exact assocFind_map_swap s.annotations (shortname_from_fullname child.name) child h

/-- Witness for claim C7: a one-element collection already holding the short
name of the incoming child. -/
theorem claim_C7_duplicate_reference_atomicity_witness :
    AnnotationSubject.add_annotation_value
        (AnnotationSubject.mk
          [(("anno1"),
            AnnotationValueObj.mk (FullName.mk [("Foo")] ("anno1")) (some ("Foo")) ("anno1") ("old"))])
        (AnnotationValueObj.mk (FullName.mk [("Foo")] ("anno1")) (some ("Foo")) ("anno1") ("new"))
        false
      = .error .duplicateReference
    ∧ ∃ s2 : AnnotationSubject,
        AnnotationSubject.add_annotation_value
            (AnnotationSubject.mk
              [(("anno1"),
                AnnotationValueObj.mk (FullName.mk [("Foo")] ("anno1")) (some ("Foo")) ("anno1")
                  ("old"))])
            (AnnotationValueObj.mk (FullName.mk [("Foo")] ("anno1")) (some ("Foo")) ("anno1") ("new"))
            true
          = .ok s2
        ∧ s2.annotations.length = 1
        ∧ assocFind s2.annotations ("anno1")
            = some (AnnotationValueObj.mk (FullName.mk [("Foo")] ("anno1")) (some ("Foo")) ("anno1")
                ("new")) :=
  claim_C7_duplicate_reference_atomicity
    (AnnotationSubject.mk
      [(("anno1"),
        AnnotationValueObj.mk (FullName.mk [("Foo")] ("anno1")) (some ("Foo")) ("anno1") ("old"))])
    (AnnotationValueObj.mk (FullName.mk [("Foo")] ("anno1")) (some ("Foo")) ("anno1") ("new"))
    rfl

/-- Claim C8: the annotation lookup of a subject is option valued: it returns
the stored string value of the annotation value registered under the short
name when one exists in the collection, and `none`, without failing, when none
exists. -/
theorem claim_C8_get_annotation_lookup :
    ∀ (s : AnnotationSubject) (name : String),
      (∀ v : AnnotationValueObj, assocFind s.annotations name = some v →
        AnnotationSubject.get_annotation_value s name = some v.get_value)
      ∧ (assocFind s.annotations name = none →
        AnnotationSubject.get_annotation_value s name = none) := by
  intro s name
  constructor
  · intro v hv
    simp [AnnotationSubject.get_annotation_value, hv]
  · intro hv
    simp [AnnotationSubject.get_annotation_value, hv]

/-- Witness for claim C8: the lookup finds the stored string on a one-element
collection and returns `none` on the empty collection. -/
theorem claim_C8_get_annotation_lookup_witness :
    AnnotationSubject.get_annotation_value
        (AnnotationSubject.mk
          [(("anno1"),
            AnnotationValueObj.mk (FullName.mk [("Foo")] ("anno1")) (some ("Foo")) ("anno1")
              ("hello"))])
        ("anno1")
      = some (AnnotationValueObj.mk (FullName.mk [("Foo")] ("anno1")) (some ("Foo")) ("anno1")
          ("hello")).get_value
    ∧ AnnotationSubject.get_annotation_value (AnnotationSubject.mk []) ("anno1") = none :=
  ⟨(claim_C8_get_annotation_lookup
      (AnnotationSubject.mk
        [(("anno1"),
          AnnotationValueObj.mk (FullName.mk [("Foo")] ("anno1")) (some ("Foo")) ("anno1")
            ("hello"))])
      ("anno1")).1
      (AnnotationValueObj.mk (FullName.mk [("Foo")] ("anno1")) (some ("Foo")) ("anno1") ("hello"))
      rfl,
   (claim_C8_get_annotation_lookup (AnnotationSubject.mk []) ("anno1")).2 rfl⟩

/-- Claim C9: the command-path attachment of an annotation value always
invokes the subject with `replace=true`, so it always succeeds, and when the
short name already exists on the subject the existing value is replaced
instead of the duplicate-reference failure. -/
theorem claim_C9_command_add_replaces :
    ∀ (parent : AnnotationSubject) (anno : AnnotationValueObj),
      AnnotationValueCommand.add_annotation_value parent anno
        = AnnotationSubject.add_annotation_value parent anno true
      ∧ (∃ s2, AnnotationValueCommand.add_annotation_value parent anno = .ok s2)
      ∧ ((assocFind parent.annotations (shortname_from_fullname anno.name)).isSome = true →
          ∃ s2 : AnnotationSubject,
            AnnotationValueCommand.add_annotation_value parent anno = .ok s2
            ∧ assocFind s2.annotations (shortname_from_fullname anno.name) = some anno
            ∧ s2.annotations.length = parent.annotations.length) := by
  intro parent anno
  refine ⟨rfl, ?_, ?_⟩
  · cases hfind : assocFind parent.annotations (shortname_from_fullname anno.name) with
    | some w =>
        refine ⟨AnnotationSubject.mk (parent.annotations.map
          (fun p => if p.1 = shortname_from_fullname anno.name
            then (shortname_from_fullname anno.name, anno) else p)), ?_⟩
        simp [AnnotationValueCommand.add_annotation_value,
          AnnotationSubject.add_annotation_value, add_classref, Except.map, hfind]
    | none =>
        refine ⟨AnnotationSubject.mk
          (parent.annotations ++ [(shortname_from_fullname anno.name, anno)]), ?_⟩
        simp [AnnotationValueCommand.add_annotation_value,
          AnnotationSubject.add_annotation_value, add_classref, Except.map, hfind]
  · intro h
    obtain ⟨w, hw⟩ := Option.isSome_iff_exists.mp h
    refine ⟨AnnotationSubject.mk (parent.annotations.map
        (fun p => if p.1 = shortname_from_fullname anno.name
          then (shortname_from_fullname anno.name, anno) else p)), ?_, ?_, ?_⟩
    · simp [AnnotationValueCommand.add_annotation_value,
        AnnotationSubject.add_annotation_value, add_classref, Except.map, hw]
    · exact assocFind_map_swap parent.annotations (shortname_from_fullname anno.name) anno h
    · simp

/-- Witness for claim C9: attaching through the command path on a subject
already holding the short name succeeds and replaces the stored value. -/
theorem claim_C9_command_add_replaces_witness :
    ∃ s2 : AnnotationSubject,
      AnnotationValueCommand.add_annotation_value
          (AnnotationSubject.mk
            [(("anno1"),
              AnnotationValueObj.mk (FullName.mk [("Foo")] ("anno1")) (some ("Foo")) ("anno1")
                ("old"))])
          (AnnotationValueObj.mk (FullName.mk [("Foo")] ("anno1")) (some ("Foo")) ("anno1") ("new"))
        = .ok s2
      ∧ assocFind s2.annotations ("anno1")
          = some (AnnotationValueObj.mk (FullName.mk [("Foo")] ("anno1")) (some ("Foo")) ("anno1")
              ("new"))
      ∧ s2.annotations.length = 1 :=
  (claim_C9_command_add_replaces
    (AnnotationSubject.mk
      [(("anno1"),
        AnnotationValueObj.mk (FullName.mk [("Foo")] ("anno1")) (some ("Foo")) ("anno1") ("old"))])
    (AnnotationValueObj.mk (FullName.mk [("Foo")] ("anno1")) (some ("Foo")) ("anno1") ("new"))).2.2
    rfl

/-- Claim C10: `infer_cardinality` only ever returns `ONE` or `MANY`.  An IR
node contained in the singletons set yields `ONE`; a previously memoized
result is returned unchanged (for a node outside the singletons set, since
the singleton check precedes the memo read); under a well-formed memo every
value the function returns lies in `{ONE, MANY}`; and when the per-node
inference produces a value outside `{ONE, MANY}` the function raises the
error instead of returning the value. -/
theorem claim_C10_infer_cardinality_one_or_many :
    ∀ (ir : IR) (singletons : List IR) (cache : InferenceCache),
      (ir ∈ singletons → infer_cardinality ir singletons cache = .ok (ONE, cache))
      ∧ (∀ c : Cardinality, ir ∉ singletons → lookupCache cache ir = some c →
          infer_cardinality ir singletons cache = .ok (c, cache))
      ∧ (cacheWF cache → ∀ (r : Cardinality) (cache2 : InferenceCache),
          infer_cardinality ir singletons cache = .ok (r, cache2) →
          r = ONE ∨ r = MANY)
      ∧ (∀ (r : Cardinality) (cache2 : InferenceCache),
          ir ∉ singletons → lookupCache cache ir = none →
          infer_cardinality_dispatch ir singletons cache = .ok (r, cache2) →
          ¬(r = ONE ∨ r = MANY) →
          infer_cardinality ir singletons cache = .error .edgeQLError) := by
  intro ir singletons cache
  refine ⟨?_, ?_, ?_, ?_⟩
  · intro hmem
    simp [infer_cardinality, hmem]
  · intro c hns hc
    simp [infer_cardinality, hns, hc]
  · intro hwf r cache2 h
    rw [infer_cardinality] at h
    by_cases hmem : ir ∈ singletons
    · rw [if_pos hmem] at h
      simp only [Except.ok.injEq, Prod.mk.injEq] at h
      exact Or.inl h.1.symm
    · rw [if_neg hmem] at h
      cases hl : lookupCache cache ir with
      | some c =>
          rw [hl] at h
          simp only [Except.ok.injEq, Prod.mk.injEq] at h
          have hm := hwf (ir, c) (lookupCache_mem cache ir c hl)
          rw [← h.1]
          exact hm
      | none =>
          rw [hl] at h
          cases hd : infer_cardinality_dispatch ir singletons cache with
          | error e => rw [hd] at h; simp at h
          | ok pr =>
              obtain ⟨res, c2⟩ := pr
              rw [hd] at h
              dsimp only at h
              by_cases hg : res = ONE ∨ res = MANY
              · rw [if_pos hg] at h
                simp only [Except.ok.injEq, Prod.mk.injEq] at h
                rw [← h.1]
                exact hg
              · rw [if_neg hg] at h
                simp at h
  · intro r cache2 hns hl hd hbad
    rw [infer_cardinality]
    rw [if_neg hns, hl, hd]
    dsimp only
    rw [if_neg hbad]

/-- Witness for claim C10: a singleton node yields `ONE`; a memoized node
returns the memo unchanged; a fresh inference on a constant is in the
designated set; a memo polluted with the out-of-range value 0 makes the guard
raise the error. -/
theorem claim_C10_infer_cardinality_one_or_many_witness :
    infer_cardinality IR.constant [IR.constant] [] = .ok (ONE, [])
    ∧ infer_cardinality IR.setBare [] [(IR.setBare, MANY)] = .ok (MANY, [(IR.setBare, MANY)])
    ∧ (ONE = ONE ∨ ONE = MANY)
    ∧ infer_cardinality (IR.unaryOp IR.setBare) [] [(IR.setBare, Cardinality.fin 0)]
        = .error .edgeQLError := by
  refine ⟨?_, ?_, ?_, ?_⟩
  · exact (claim_C10_infer_cardinality_one_or_many IR.constant [IR.constant] []).1
      (List.mem_singleton.mpr rfl)
  · exact (claim_C10_infer_cardinality_one_or_many IR.setBare [] [(IR.setBare, MANY)]).2.1
      MANY (by simp) rfl
  · exact (claim_C10_infer_cardinality_one_or_many IR.constant [] []).2.2.1
      (by intro p hp; cases hp) ONE [(IR.constant, ONE)]
      (by simp [infer_cardinality, infer_cardinality_dispatch, lookupCache, ONE, MANY])
  · exact (claim_C10_infer_cardinality_one_or_many (IR.unaryOp IR.setBare) []
      [(IR.setBare, Cardinality.fin 0)]).2.2.2 (Cardinality.fin 0) [(IR.setBare, Cardinality.fin 0)]
      (by simp) rfl
      (by simp [infer_cardinality_dispatch, infer_cardinality, lookupCache])
      (by simp [ONE, MANY])

end EdgeDB
